import Mathlib

/-!
Shallow embedding of `Layers.py` (Transformer building blocks written with PyTorch).

Tensors are modelled as total functions from `Fin`-indexed coordinates to real
numbers; each `torch` operation used by the source becomes an index-level
definition.  Floating-point arithmetic is modelled by exact real arithmetic,
except for `LayerNorm`, where a NaN-producing division is reachable and the
scalar type is `Option ℝ` with `none` standing for a non-finite float result.

Randomness (dropout masks, random initialisation of an `nn.Embedding` created
inside `MultiHeadedAttention_RPR.forward`) is made explicit: the realised
dropout action is passed as a function argument, and the randomly drawn
embedding tables are passed as arguments to the forward definition.
-/

set_option maxHeartbeats 1000000

noncomputable section

/-- 3-D real tensor of shape (batch, sequence, feature). -/
abbrev Tensor3 (B L E : ℕ) : Type := Fin B → Fin L → Fin E → ℝ

/-- 4-D real tensor of shape (batch, head, sequence, feature). -/
abbrev Tensor4 (B H L E : ℕ) : Type := Fin B → Fin H → Fin L → Fin E → ℝ

/-- `F.softmax(x, dim=-1)`: softmax over the trailing axis. -/
def softmaxLast {B H L S : ℕ} (x : Tensor4 B H L S) : Tensor4 B H L S :=
  fun b h i j => Real.exp (x b h i j) / ∑ t, Real.exp (x b h i t)

/-- `attention(query, key, value, mask=None, dropout=None)` (Layers.py lines 103-131):
scaled dot-product attention.  `scores = query @ key.transpose(-2,-1) / sqrt(d_k)`;
positions where the mask is zero are filled with `-1e9`; softmax over the last
axis; the optional dropout module is applied to the weights; returns the pair
`(p_attn @ value, p_attn)` where `p_attn` is the (post-dropout) weight tensor. -/
def attention {B H L S dk dv : ℕ} (query : Tensor4 B H L dk) (key : Tensor4 B H S dk)
    (value : Tensor4 B H S dv) (mask : Option (Tensor4 B H L S))
    (dropout : Option (Tensor4 B H L S → Tensor4 B H L S)) :
    Tensor4 B H L dv × Tensor4 B H L S :=
  let scores : Tensor4 B H L S :=
    fun b h i j => (∑ t, query b h i t * key b h j t) / Real.sqrt dk
  let masked : Tensor4 B H L S :=
    match mask with
    | none => scores
    | some m => fun b h i j => if m b h i j = 0 then -(1e9) else scores b h i j
  let p_attn :=
    match dropout with
    | none => softmaxLast masked
    | some d => d (softmaxLast masked)
  (fun b h i f => ∑ j, p_attn b h i j * value b h j f, p_attn)

/-- Parameters of one `nn.Linear(din, dout)`: weight matrix (out × in) and bias. -/
structure LinearParams (din dout : ℕ) where
  weight : Fin dout → Fin din → ℝ
  bias : Fin dout → ℝ

/-- `nn.Linear` forward on the trailing axis of a 3-D tensor: `y = x Wᵀ + b`. -/
def linearMap {B L din dout : ℕ} (l : LinearParams din dout) (x : Tensor3 B L din) :
    Tensor3 B L dout :=
  fun b s o => (∑ i, x b s i * l.weight o i) + l.bias o

/-- `x.view(nbatches, -1, h, d_k).transpose(1, 2)`: split the feature axis of a
(batch, seq, h·d_k) tensor into heads, giving (batch, h, seq, d_k).  Entry
`(b, i, s, f)` of the result is entry `(b, s, i·d_k + f)` of the input. -/
def headSplit {B L h dk : ℕ} (x : Tensor3 B L (h * dk)) : Tensor4 B h L dk :=
  fun b i s f => x b s ⟨i.1 * dk + f.1, by
    have h1 : i.1 * dk + f.1 < (i.1 + 1) * dk := by
      rw [Nat.succ_mul]; exact Nat.add_lt_add_left f.2 _
    exact lt_of_lt_of_le h1 (Nat.mul_le_mul_right dk i.2)⟩

/-- `x.transpose(1, 2).contiguous().view(nbatches, -1, h * d_k)`: merge the head
axis back into the feature axis, inverse of `headSplit`. -/
def headMerge {B L h dk : ℕ} (x : Tensor4 B h L dk) : Tensor3 B L (h * dk) :=
  fun b s e => x b e.divNat s e.modNat

/-- The four `nn.Linear(d_model, d_model)` modules of a multi-head attention
module (`self.linears`, query/key/value/output projections), `d_model = h·dk`. -/
structure MHAParams (h dk : ℕ) where
  wq : LinearParams (h * dk) (h * dk)
  wk : LinearParams (h * dk) (h * dk)
  wv : LinearParams (h * dk) (h * dk)
  wo : LinearParams (h * dk) (h * dk)

/-- `mask.unsqueeze(1)`: broadcast a (batch, q_len, k_len) mask over the head axis. -/
def unsqueezeHead {B H L S : ℕ} (m : Fin B → Fin L → Fin S → ℝ) : Tensor4 B H L S :=
  fun b _ i j => m b i j

/-- `MultiHeadedAttention.forward` (Layers.py lines 151-181).  `dropoutF` is the
realised action of `self.dropout` on this call (identity when dropout is
disabled).  The assignment to the diagnostic cache `self.attn` does not affect
the returned tensor and is not modelled. -/
def MultiHeadedAttention.forward {B L S h dk : ℕ} (p : MHAParams h dk)
    (dropoutF : Tensor4 B h L S → Tensor4 B h L S)
    (query : Tensor3 B L (h * dk)) (key value : Tensor3 B S (h * dk))
    (mask : Option (Fin B → Fin L → Fin S → ℝ)) : Tensor3 B L (h * dk) :=
  let mask4 : Option (Tensor4 B h L S) := mask.map unsqueezeHead
  let q := headSplit (linearMap p.wq query)
  let k := headSplit (linearMap p.wk key)
  let v := headSplit (linearMap p.wv value)
  let x := (attention q k v mask4 (some dropoutF)).1
  linearMap p.wo (headMerge x)

/-- `torch.clamp(x, lo, hi)` on integers. -/
def clampInt (x lo hi : ℤ) : ℤ := min (max x lo) hi

/-- `MultiHeadedAttention_RPR._generate_relative_positions_matrix(d_q, d_k, k)`
(Layers.py lines 279-284) with `d_q = d_k = L`: entry `(i, j)` is
`clamp(j - i, -k, k) + k`. -/
def relPosMatrix (L k : ℕ) : Fin L → Fin L → ℤ :=
  fun i j => clampInt ((j : ℤ) - (i : ℤ)) (-(k : ℤ)) (k : ℤ) + (k : ℤ)

/-- The entry of `relPosMatrix` as an index into the embedding table of size
`2k + 1` (this is what `nn.Embedding.__call__` does with the integer matrix). -/
def relPosIndex (L k : ℕ) (i j : Fin L) : Fin (2 * k + 1) :=
  ⟨(relPosMatrix L k i j).toNat, by
    have h1 : -(k : ℤ) ≤ min (max ((j : ℤ) - (i : ℤ)) (-(k : ℤ))) (k : ℤ) :=
      le_min (le_max_right _ _) (neg_le_self (by positivity))
    have h2 : min (max ((j : ℤ) - (i : ℤ)) (-(k : ℤ))) (k : ℤ) ≤ (k : ℤ) :=
      min_le_right _ _
    simp only [relPosMatrix, clampInt]
    omega⟩

/-- `MultiHeadedAttention_RPR.generate_relative_positions_embeddings(len_q, len_k,
depth, max_relative_position)` (Layers.py lines 286-291).  The source creates a
fresh `nn.Embedding(2k+1, depth)` — randomly initialised — inside every call;
the drawn table is the explicit `table` argument here.  The result is the table
lookup along the relative-position matrix. -/
def generate_relative_positions_embeddings (L k depth : ℕ)
    (table : Fin (2 * k + 1) → Fin depth → ℝ) : Fin L → Fin L → Fin depth → ℝ :=
  fun i j f => table (relPosIndex L k i j) f

/-- `MultiHeadedAttention_RPR._relative_attn_inner(x, y, z, transpose=True)`
(Layers.py lines 293-307): `x @ y.transpose(-1,-2)` plus the per-query-position
contraction of `x` against `z.transpose(-1,-2)` (the permute/view pair moves the
sequence axis first and back, so entry `(b, h, i, j)` of the second summand is
`∑ f, x b h i f * z i j f`). -/
def relativeAttnInnerT {B H L d : ℕ} (x y : Tensor4 B H L d)
    (z : Fin L → Fin L → Fin d → ℝ) : Tensor4 B H L L :=
  fun b h i j => (∑ f, x b h i f * y b h j f) + (∑ f, x b h i f * z i j f)

/-- `MultiHeadedAttention_RPR._relative_attn_inner(x, y, z, transpose=False)`
(Layers.py lines 293-307): `x @ y` plus the per-query-position contraction of
`x` against `z`; entry `(b, h, i, f)` of the second summand is
`∑ t, x b h i t * z i t f`. -/
def relativeAttnInnerF {B H L d : ℕ} (x : Tensor4 B H L L) (y : Tensor4 B H L d)
    (z : Fin L → Fin L → Fin d → ℝ) : Tensor4 B H L d :=
  fun b h i f => (∑ t, x b h i t * y b h t f) + (∑ t, x b h i t * z i t f)

/-- `MultiHeadedAttention_RPR.forward` (Layers.py lines 242-277).
`max_relative_position` is the constructor argument stored on the module;
`keyTable`/`valueTable` are the randomly initialised `nn.Embedding` weights that
the two `generate_relative_positions_embeddings` calls draw afresh inside this
forward call; `dropoutF` is the realised action of `self.dropout`.  Note that
the source unsqueezes `mask` but never applies it, and never divides the logits
by `sqrt(d_k)`. -/
def MultiHeadedAttention_RPR.forward (max_relative_position : ℕ) {B L h dk : ℕ}
    (p : MHAParams h dk)
    (keyTable valueTable : Fin (2 * max_relative_position + 1) → Fin dk → ℝ)
    (dropoutF : Tensor4 B h L L → Tensor4 B h L L)
    (query key value : Tensor3 B L (h * dk))
    (mask : Option (Fin B → Fin L → Fin L → ℝ)) : Tensor3 B L (h * dk) :=
  let _mask4 : Option (Tensor4 B h L L) := mask.map unsqueezeHead
  let q := headSplit (linearMap p.wq query)
  let k := headSplit (linearMap p.wk key)
  let v := headSplit (linearMap p.wv value)
  let relation_keys := generate_relative_positions_embeddings L max_relative_position dk keyTable
  let relation_values := generate_relative_positions_embeddings L max_relative_position dk valueTable
  let logits := relativeAttnInnerT q k relation_keys
  let weights := dropoutF (softmaxLast logits)
  let x := relativeAttnInnerF weights v relation_values
  linearMap p.wo (headMerge x)

/-! ### LayerNorm with non-finite tracking

`LayerNorm.forward` uses `x.std(-1)`, whose torch default is the unbiased
(Bessel) sample standard deviation with divisor `F - 1`; for a width-1 feature
axis this divides `0` by `0`, producing a float NaN.  Scalars here are
`Option ℝ`, with `none` standing for a non-finite result (the only reachable
zero-denominator division below has a zero numerator, i.e. it is a NaN). -/

/-- Float addition with non-finite propagation. -/
def nAdd (a b : Option ℝ) : Option ℝ :=
  match a, b with
  | some a, some b => some (a + b)
  | _, _ => none

/-- Float multiplication with non-finite propagation. -/
def nMul (a b : Option ℝ) : Option ℝ :=
  match a, b with
  | some a, some b => some (a * b)
  | _, _ => none

/-- Float division: non-finite when the denominator is zero or an operand is
already non-finite. -/
def nDiv (a b : Option ℝ) : Option ℝ :=
  match a, b with
  | some a, some b => if b = 0 then none else some (a / b)
  | _, _ => none

/-- Float square root with non-finite propagation (arguments here are
non-negative, so the negative-argument NaN case does not arise). -/
def nSqrt (a : Option ℝ) : Option ℝ := a.map Real.sqrt

/-- `x.mean(-1)` over a width-`F` trailing axis (one position). -/
def torchMean (F : ℕ) (x : Fin F → ℝ) : ℝ := (∑ i, x i) / (F : ℝ)

/-- `x.std(-1)` over a width-`F` trailing axis (one position): torch's default
unbiased sample standard deviation, `sqrt(∑ (xᵢ - mean)² / (F - 1))`. -/
def torchStd (F : ℕ) (x : Fin F → ℝ) : Option ℝ :=
  nSqrt (nDiv (some (∑ i, (x i - torchMean F x) ^ 2)) (some ((F : ℝ) - 1)))

/-- `LayerNorm.forward` (Layers.py lines 49-52) on one trailing-axis slice:
`weight * (x - mean) / (std + eps) + bias`. -/
def LayerNorm.forward (F : ℕ) (weight bias : Fin F → ℝ) (eps : ℝ) (x : Fin F → ℝ) :
    Fin F → Option ℝ :=
  fun i =>
    nAdd (nDiv (nMul (some (weight i)) (some (x i - torchMean F x)))
               (nAdd (torchStd F x) (some eps)))
         (some (bias i))

/-- The population-standard-deviation variant (divisor `F` instead of `F - 1`),
stated for contrast with the torch default; `LayerNorm.forward` does not
compute this. -/
def layerNormPopulation (F : ℕ) (weight bias : Fin F → ℝ) (eps : ℝ) (x : Fin F → ℝ) :
    Fin F → Option ℝ :=
  fun i =>
    nAdd (nDiv (nMul (some (weight i)) (some (x i - torchMean F x)))
               (nAdd (nSqrt (nDiv (some (∑ j, (x j - torchMean F x) ^ 2)) (some (F : ℝ))))
                     (some eps)))
         (some (bias i))

/-! ### PositionalEncoding -/

/-- `div_term` (Layers.py line 214) for model dimension `2M`: the `i`-th entry
(for even feature index `2i`) is `exp(2i * -(log 10000 / (2M)))`. -/
def divTerm (M i : ℕ) : ℝ :=
  Real.exp ((2 * i : ℝ) * -(Real.log 10000 / (2 * M : ℝ)))

/-- The precomputed table `pe` of `PositionalEncoding.__init__` (Layers.py lines
212-218) for model dimension `2M` (the interleaved slice assignments require an
even model dimension): even columns hold `sin(pos * div_term)`, odd columns
`cos(pos * div_term)`. -/
def PositionalEncoding.pe (M maxLen : ℕ) : Fin maxLen → Fin (2 * M) → ℝ :=
  fun pos f =>
    if f.1 % 2 = 0 then Real.sin ((pos.1 : ℝ) * divTerm M (f.1 / 2))
    else Real.cos ((pos.1 : ℝ) * divTerm M (f.1 / 2))

/-- `PositionalEncoding.forward` (Layers.py lines 220-222): add the table sliced
to the input's sequence length (`self.pe[:, :x.size(1)]`; `max_len = L + R`
keeps the slice total), then apply dropout.  `dropoutF` is the realised action
of `self.dropout`. -/
def PositionalEncoding.forward {B L : ℕ} (M R : ℕ)
    (dropoutF : Tensor3 B L (2 * M) → Tensor3 B L (2 * M))
    (x : Tensor3 B L (2 * M)) : Tensor3 B L (2 * M) :=
  dropoutF (fun b s f => x b s f + PositionalEncoding.pe M (L + R) (Fin.castAdd R s) f)

/-! ### Shape-level tensors and SublayerConnection

`SublayerConnection.forward` is `x + self.dropout(sublayer(self.norm(x)))`
with no shape check of its own: the `+` is torch broadcasting addition, which
raises only when the two shapes are not broadcast-compatible, and silently
broadcasts otherwise.  Tensors carry an explicit shape here; `none` models the
substrate raising a RuntimeError. -/

/-- A tensor with an explicit (row-major, outermost-first) shape; `data` maps a
multi-index to the stored value. -/
structure TTensor where
  shape : List ℕ
  data : List ℕ → ℝ

/-- Broadcast two shapes given in reversed (innermost-first) order: dimensions
are compatible when equal or one of them is 1; a missing dimension counts as 1. -/
def bshapeRev : List ℕ → List ℕ → Option (List ℕ)
  | [], ys => some ys
  | x :: xs, [] => some (x :: xs)
  | a :: xs, b :: ys =>
    if a = b ∨ a = 1 ∨ b = 1 then (bshapeRev xs ys).map (fun s => max a b :: s)
    else none

/-- Broadcast shape of two (outermost-first) shapes, when they are compatible. -/
def bshape (xs ys : List ℕ) : Option (List ℕ) :=
  (bshapeRev xs.reverse ys.reverse).map List.reverse

/-- Map a multi-index of the broadcast result back to a source tensor's index:
drop the extra leading axes and clamp broadcast (size-1) axes to index 0. -/
def reindex (srcShape idx : List ℕ) : List ℕ :=
  List.zipWith (fun d i => if d = 1 then 0 else i) srcShape
    (idx.drop (idx.length - srcShape.length))

/-- Torch broadcasting addition `x + y`; `none` models the RuntimeError raised
when the shapes are not broadcast-compatible. -/
def torchAdd (x y : TTensor) : Option TTensor :=
  match bshape x.shape y.shape with
  | none => none
  | some s => some ⟨s, fun idx => x.data (reindex x.shape idx) + y.data (reindex y.shape idx)⟩

/-- `LayerNorm` applied to a shape-carrying tensor over its trailing axis (the
value-level finite case of `LayerNorm.forward`, shape preserved; values are
irrelevant to the shape behaviour of `SublayerConnection`). -/
def normT (weight bias : ℕ → ℝ) (eps : ℝ) (x : TTensor) : TTensor :=
  let F := x.shape.getLastD 0
  ⟨x.shape, fun idx =>
    let mean := (∑ j ∈ Finset.range F, x.data (idx.dropLast ++ [j])) / (F : ℝ)
    let std := Real.sqrt
      ((∑ j ∈ Finset.range F, (x.data (idx.dropLast ++ [j]) - mean) ^ 2) / ((F : ℝ) - 1))
    weight (idx.getLastD 0) * (x.data idx - mean) / (std + eps) + bias (idx.getLastD 0)⟩

/-- `SublayerConnection.forward` (Layers.py lines 65-67):
`x + self.dropout(sublayer(self.norm(x)))`; `dropoutF` is the realised action
of `self.dropout` (identity at inference). -/
def SublayerConnection.forward (weight bias : ℕ → ℝ) (eps : ℝ)
    (dropoutF : TTensor → TTensor) (x : TTensor) (sublayer : TTensor → TTensor) :
    Option TTensor :=
  torchAdd x (dropoutF (sublayer (normT weight bias eps x)))

/-! ### Concrete instances used by counterexamples and failing-input theorems -/

/-- Identity `nn.Linear` on a 1-dimensional feature axis (weight 1, bias 0). -/
def idLin1 : LinearParams (1 * 1) (1 * 1) := ⟨fun _ _ => 1, fun _ => 0⟩

/-- Multi-head attention parameters with `h = 1`, `d_k = 1` and identity
projections. -/
def mhaP1 : MHAParams 1 1 := ⟨idLin1, idLin1, idLin1, idLin1⟩

/-- Identity `nn.Linear` on a 2-dimensional feature axis. -/
def idLin2 : LinearParams (1 * 2) (1 * 2) :=
  ⟨fun o i => if o.1 = i.1 then 1 else 0, fun _ => 0⟩

/-- Multi-head attention parameters with `h = 1`, `d_k = 2` and identity
projections. -/
def mhaP2 : MHAParams 1 2 := ⟨idLin2, idLin2, idLin2, idLin2⟩

/-- Constant all-ones input of shape (1, 1, 1). -/
def ones111 : Tensor3 1 1 1 := fun _ _ _ => 1

/-- Concrete input of shape (1, 2, 2): row 0 is `(1, 0)`, row 1 is `(0, 0)`. -/
def x122 : Tensor3 1 2 2 := fun _ s f => if s.1 = 0 ∧ f.1 = 0 then 1 else 0

/-- All-zero (1, 1, 1, 1) tensor. -/
def zeroQ : Tensor4 1 1 1 1 := fun _ _ _ _ => 0

/-- All-zero (1, 1, 2, 1) tensor (key/value with two key positions). -/
def zeroKV : Tensor4 1 1 2 1 := fun _ _ _ _ => 0

/-- All-zero (1, 1, 1, 2) mask: both key positions forbidden. -/
def zeroMask : Tensor4 1 1 1 2 := fun _ _ _ _ => 0

/-- Query row `i` of batch `b`, head `h` is fully masked: a mask is present and
its whole row is zero. -/
def fullyMasked {B H L S : ℕ} (m : Option (Tensor4 B H L S)) (b : Fin B) (h : Fin H)
    (i : Fin L) : Prop :=
  ∃ mm, m = some mm ∧ ∀ j, mm b h i j = 0

end

/-! ## Theorems -/

section Helpers

/-- Each row of a softmax over the trailing axis sums to 1 (the axis is
nonempty). -/
theorem softmaxLast_row_sum {B H L S : ℕ} (x : Tensor4 B H L S) (b : Fin B) (h : Fin H)
    (i : Fin L) (hS : 0 < S) : ∑ j, softmaxLast x b h i j = 1 := by
  have hpos : 0 < ∑ t, Real.exp (x b h i t) :=
    Finset.sum_pos (fun t _ => Real.exp_pos _) ⟨⟨0, hS⟩, Finset.mem_univ _⟩
  simp only [softmaxLast]
  rw [← Finset.sum_div, div_self (ne_of_gt hpos)]

end Helpers

/-- C8: for every sequence length `L` and clipping bound `k`,
`_generate_relative_positions_matrix(L, L, k)` has entry
`(i, j) = clip(j - i, -k, k) + k`, and every entry lies in `[0, 2k]`. -/
theorem relPosMatrix_entries (L k : ℕ) (i j : Fin L) :
    relPosMatrix L k i j = min (max ((j : ℤ) - (i : ℤ)) (-(k : ℤ))) (k : ℤ) + (k : ℤ) ∧
    0 ≤ relPosMatrix L k i j ∧ relPosMatrix L k i j ≤ 2 * (k : ℤ) := by
  refine ⟨rfl, ?_, ?_⟩ <;>
  · simp only [relPosMatrix, clampInt, min_def, max_def]
    split_ifs <;> omega

/-- C10: `LayerNorm.forward` normalises by the unbiased sample standard
deviation (torch default, divisor `F - 1`) plus `eps`; this differs from the
population-standard-deviation (divisor `F`) variant; and for feature width
`F = 1` the divisor is zero, so every output entry is NaN. -/
theorem layerNorm_bessel_divisor_and_nan :
    (∀ (w b : Fin 1 → ℝ) (eps : ℝ) (x : Fin 1 → ℝ) (i : Fin 1),
      LayerNorm.forward 1 w b eps x i = none) ∧
    (∀ (F : ℕ) (w b : Fin F → ℝ) (eps : ℝ) (x : Fin F → ℝ) (i : Fin F),
      2 ≤ F → 0 < eps →
      LayerNorm.forward F w b eps x i =
        some (w i * (x i - torchMean F x) /
          (Real.sqrt ((∑ j, (x j - torchMean F x) ^ 2) / ((F : ℝ) - 1)) + eps) + b i)) ∧
    LayerNorm.forward 2 (fun _ => 1) (fun _ => 0) 0 (fun j => if j.1 = 0 then 0 else 2) 1 ≠
      layerNormPopulation 2 (fun _ => 1) (fun _ => 0) 0 (fun j => if j.1 = 0 then 0 else 2) 1 := by
  refine ⟨?_, ?_, ?_⟩
  · intro w b eps x i
    simp [LayerNorm.forward, torchStd, nSqrt, nDiv, nAdd, nMul]
  · intro F w b eps x i hF heps
    have h1 : ((F : ℝ) - 1) ≠ 0 := by
      have h2 : (2 : ℝ) ≤ (F : ℝ) := by exact_mod_cast hF
      linarith
    have h2 : Real.sqrt ((∑ j, (x j - torchMean F x) ^ 2) / ((F : ℝ) - 1)) + eps ≠ 0 := by
      have h3 := Real.sqrt_nonneg ((∑ j, (x j - torchMean F x) ^ 2) / ((F : ℝ) - 1))
      linarith
    simp [LayerNorm.forward, torchStd, nSqrt, nDiv, nAdd, nMul, h1, h2]
  · intro hcontra
    simp only [LayerNorm.forward, layerNormPopulation, torchStd, torchMean, nSqrt, nDiv,
      nAdd, nMul, Option.map_some'] at hcontra
    norm_num [Fin.sum_univ_two] at hcontra

/-- C10 witness: concrete instances of both hypotheses of the Bessel/NaN
theorem. -/
theorem layerNorm_bessel_divisor_and_nan_witness :
    LayerNorm.forward 1 (fun _ => 1) (fun _ => 0) (1e-6) (fun _ => 5) 0 = none ∧
    LayerNorm.forward 2 (fun _ => 1) (fun _ => 0) 1 (fun _ => 3) 0 =
      some ((fun _ : Fin 2 => (1 : ℝ)) 0 * ((fun _ : Fin 2 => (3 : ℝ)) 0 -
          torchMean 2 (fun _ => 3)) /
        (Real.sqrt ((∑ j : Fin 2, ((fun _ : Fin 2 => (3 : ℝ)) j -
          torchMean 2 (fun _ => 3)) ^ 2) / ((2 : ℝ) - 1)) + 1) +
        (fun _ : Fin 2 => (0 : ℝ)) 0) :=
  ⟨layerNorm_bessel_divisor_and_nan.1 _ _ _ _ 0,
    by
      have h := layerNorm_bessel_divisor_and_nan.2.1 2 (fun _ => 1) (fun _ => 0) 1
        (fun _ => 3) 0 (by norm_num) (by norm_num)
      exact_mod_cast h⟩

/-- C7 counterexample: with input `x` of shape (2, 3) and a sublayer returning
shape (1, 3), the output shape of the sublayer differs from `x`'s shape, yet
`SublayerConnection.forward` raises no error: the addition silently broadcasts. -/
theorem sublayerConnection_broadcastable_mismatch_no_error :
    ((fun _ : TTensor => (⟨[1, 3], fun _ => 0⟩ : TTensor))
        (normT (fun _ => 1) (fun _ => 0) (1e-6) ⟨[2, 3], fun _ => 0⟩)).shape ≠
      (⟨[2, 3], fun _ => 0⟩ : TTensor).shape ∧
    (SublayerConnection.forward (fun _ => 1) (fun _ => 0) (1e-6) id
      ⟨[2, 3], fun _ => 0⟩ (fun _ => ⟨[1, 3], fun _ => 0⟩)).isSome = true := by
  constructor
  · simp
  · rfl

/-- C7 amended: `SublayerConnection.forward` (with dropout disabled) returns a
result exactly when the shape of the sublayer's output is broadcast-compatible
with `x`'s shape; only non-broadcastable shapes make the substrate raise, and
broadcastable shape mismatches are silently broadcast rather than rejected. -/
theorem sublayerConnection_error_iff_not_broadcastable
    (w b : ℕ → ℝ) (eps : ℝ) (x : TTensor) (sublayer : TTensor → TTensor) :
    (SublayerConnection.forward w b eps id x sublayer).isSome = true ↔
      (bshape x.shape (sublayer (normT w b eps x)).shape).isSome = true := by
  unfold SublayerConnection.forward torchAdd
  cases hb : bshape x.shape ((id (sublayer (normT w b eps x))).shape) <;>
    simp_all

/-- C4: the `attention` function computes masked, scaled dot-product scores,
softmaxes them over the key axis, applies the dropout module exactly when one
is supplied, and returns the pair `(weights · value, weights)`. -/
theorem attention_functional_spec {B H L S dk dv : ℕ} (q : Tensor4 B H L dk)
    (k : Tensor4 B H S dk) (v : Tensor4 B H S dv) :
    (∀ (m : Option (Tensor4 B H L S)) (dp : Option (Tensor4 B H L S → Tensor4 B H L S)),
      (attention q k v m dp).1 =
        fun b h i f => ∑ j, (attention q k v m dp).2 b h i j * v b h j f) ∧
    (∀ (m : Tensor4 B H L S) (d : Tensor4 B H L S → Tensor4 B H L S),
      (attention q k v (some m) (some d)).2 =
        d (fun b h i j =>
          Real.exp (if m b h i j = 0 then -(1e9)
            else (∑ t, q b h i t * k b h j t) / Real.sqrt (dk : ℝ)) /
          ∑ u, Real.exp (if m b h i u = 0 then -(1e9)
            else (∑ t, q b h i t * k b h u t) / Real.sqrt (dk : ℝ)))) ∧
    (∀ m : Tensor4 B H L S,
      (attention q k v (some m) none).2 =
        fun b h i j =>
          Real.exp (if m b h i j = 0 then -(1e9)
            else (∑ t, q b h i t * k b h j t) / Real.sqrt (dk : ℝ)) /
          ∑ u, Real.exp (if m b h i u = 0 then -(1e9)
            else (∑ t, q b h i t * k b h u t) / Real.sqrt (dk : ℝ))) ∧
    (∀ d : Tensor4 B H L S → Tensor4 B H L S,
      (attention q k v none (some d)).2 =
        d (fun b h i j =>
          Real.exp ((∑ t, q b h i t * k b h j t) / Real.sqrt (dk : ℝ)) /
          ∑ u, Real.exp ((∑ t, q b h i t * k b h u t) / Real.sqrt (dk : ℝ)))) ∧
    ((attention q k v none none).2 =
      fun b h i j =>
        Real.exp ((∑ t, q b h i t * k b h j t) / Real.sqrt (dk : ℝ)) /
        ∑ u, Real.exp ((∑ t, q b h i t * k b h u t) / Real.sqrt (dk : ℝ))) :=
  ⟨fun _ _ => rfl, fun _ _ => rfl, fun _ => rfl, fun _ => rfl, rfl⟩

/-- C5: with dropout disabled, every attention-weight row whose query position
is not fully masked sums to 1 along the key axis. -/
theorem attention_weights_row_sum_one {B H L S dk dv : ℕ} (q : Tensor4 B H L dk)
    (k : Tensor4 B H S dk) (v : Tensor4 B H S dv) (m : Option (Tensor4 B H L S))
    (b : Fin B) (h : Fin H) (i : Fin L) (hS : 0 < S)
    (hrow : ¬ fullyMasked m b h i) :
    ∑ j, (attention q k v m none).2 b h i j = 1 := by
  cases m with
  | none => exact softmaxLast_row_sum _ b h i hS
  | some mm => exact softmaxLast_row_sum _ b h i hS

/-- C5 witness: a concrete unmasked input whose weight row sums to 1. -/
theorem attention_weights_row_sum_one_witness :
    (0 : ℕ) < 1 ∧ ¬ fullyMasked (none : Option (Tensor4 1 1 1 1)) 0 0 0 ∧
    ∑ j, (attention zeroQ zeroQ zeroQ (none : Option (Tensor4 1 1 1 1)) none).2 0 0 0 j = 1 :=
  ⟨by norm_num, by simp [fullyMasked],
    attention_weights_row_sum_one zeroQ zeroQ zeroQ none 0 0 0 (by norm_num)
      (by simp [fullyMasked])⟩

/-- C6: for a fully masked query row, the weights returned by `attention` form
the exactly uniform distribution `1/S`, the row still sums to 1, and the output
row is the uniform average of the value rows — all values are real numbers, so
no NaN or Inf arises (`-1e9` is finite, unlike a true `-∞` fill). -/
theorem attention_fully_masked_row_uniform {B H L S dk dv : ℕ} (q : Tensor4 B H L dk)
    (k : Tensor4 B H S dk) (v : Tensor4 B H S dv) (m : Tensor4 B H L S)
    (b : Fin B) (h : Fin H) (i : Fin L) (hS : 0 < S)
    (hrow : ∀ j, m b h i j = 0) :
    (∀ j, (attention q k v (some m) none).2 b h i j = 1 / (S : ℝ)) ∧
    (∑ j, (attention q k v (some m) none).2 b h i j = 1) ∧
    (∀ f, (attention q k v (some m) none).1 b h i f = (∑ t, v b h t f) / (S : ℝ)) := by
  have hSr : ((S : ℝ)) ≠ 0 := Nat.cast_ne_zero.mpr (by omega)
  have h2 : (attention q k v (some m) none).2 =
      fun b h i j =>
        Real.exp (if m b h i j = 0 then -(1e9)
          else (∑ t, q b h i t * k b h j t) / Real.sqrt (dk : ℝ)) /
        ∑ u, Real.exp (if m b h i u = 0 then -(1e9)
          else (∑ t, q b h i t * k b h u t) / Real.sqrt (dk : ℝ)) := rfl
  have hnum : ∀ u : Fin S,
      (if m b h i u = 0 then -(1e9 : ℝ)
        else (∑ t, q b h i t * k b h u t) / Real.sqrt (dk : ℝ)) = -(1e9) :=
    fun u => if_pos (hrow u)
  have hw : ∀ j, (attention q k v (some m) none).2 b h i j = 1 / (S : ℝ) := by
    intro j
    rw [h2]
    simp only [hnum]
    rw [Finset.sum_const, Finset.card_univ, Fintype.card_fin, nsmul_eq_mul, mul_comm,
      ← div_div, div_self (Real.exp_ne_zero _)]
  refine ⟨hw, ?_, ?_⟩
  · rw [Finset.sum_congr rfl (fun j _ => hw j), Finset.sum_const, Finset.card_univ,
      Fintype.card_fin, nsmul_eq_mul]
    field_simp
  · intro f
    have h1 : (attention q k v (some m) none).1 b h i f =
        ∑ j, (attention q k v (some m) none).2 b h i j * v b h j f := rfl
    rw [h1, Finset.sum_congr rfl (fun j _ => by rw [hw j]), ← Finset.mul_sum]
    rw [one_div, inv_mul_eq_div]

/-- C6 witness: a concrete fully masked row (S = 2) with uniform weights. -/
theorem attention_fully_masked_row_uniform_witness :
    (0 : ℕ) < 2 ∧ (∀ j : Fin 2, zeroMask 0 0 0 j = 0) ∧
    ((∀ j, (attention zeroQ zeroKV zeroKV (some zeroMask) none).2 0 0 0 j = 1 / ((2 : ℕ) : ℝ)) ∧
      (∑ j, (attention zeroQ zeroKV zeroKV (some zeroMask) none).2 0 0 0 j = 1) ∧
      (∀ f, (attention zeroQ zeroKV zeroKV (some zeroMask) none).1 0 0 0 f =
        (∑ t, zeroKV 0 0 t f) / ((2 : ℕ) : ℝ))) :=
  ⟨by norm_num, fun j => rfl,
    attention_fully_masked_row_uniform zeroQ zeroKV zeroKV zeroMask 0 0 0 (by norm_num)
      (fun j => rfl)⟩



/-- C9: every even column `2i` of the precomputed table is
`sin(pos / 10000^(2i/D))` and every odd column `2i+1` is
`cos(pos / 10000^(2i/D))` (model dimension `D = 2M`); row 0 is the zero-phase
pattern (sin entries 0, cos entries 1); and `forward` adds the table sliced to
the input's sequence length before applying dropout. -/
theorem positionalEncoding_table_spec (M maxL : ℕ) :
    (∀ (pos : Fin (maxL + 1)) (i : Fin M),
      PositionalEncoding.pe M (maxL + 1) pos ⟨2 * i.1, by have := i.2; omega⟩ =
        Real.sin ((pos.1 : ℝ) / (10000 : ℝ) ^ ((2 * i.1 : ℝ) / (2 * M : ℝ))) ∧
      PositionalEncoding.pe M (maxL + 1) pos ⟨2 * i.1 + 1, by have := i.2; omega⟩ =
        Real.cos ((pos.1 : ℝ) / (10000 : ℝ) ^ ((2 * i.1 : ℝ) / (2 * M : ℝ)))) ∧
    (∀ i : Fin M,
      PositionalEncoding.pe M (maxL + 1) ⟨0, by omega⟩ ⟨2 * i.1, by have := i.2; omega⟩ = 0 ∧
      PositionalEncoding.pe M (maxL + 1) ⟨0, by omega⟩ ⟨2 * i.1 + 1, by have := i.2; omega⟩ = 1) ∧
    (∀ (B L R : ℕ) (dropoutF : Tensor3 B L (2 * M) → Tensor3 B L (2 * M))
        (x : Tensor3 B L (2 * M)),
      PositionalEncoding.forward M R dropoutF x =
        dropoutF (fun b s f => x b s f + PositionalEncoding.pe M (L + R) (Fin.castAdd R s) f)) := by
  have hdiv : ∀ i : ℕ, divTerm M i = ((10000 : ℝ) ^ ((2 * i : ℝ) / (2 * M : ℝ)))⁻¹ := by
    intro i
    rw [Real.rpow_def_of_pos (by norm_num : (0 : ℝ) < 10000), ← Real.exp_neg]
    unfold divTerm
    congr 1
    ring
  have heven : ∀ i : ℕ, (2 * i) % 2 = 0 := fun i => by omega
  have hodd : ∀ i : ℕ, (2 * i + 1) % 2 = 1 := fun i => by omega
  have hde : ∀ i : ℕ, (2 * i) / 2 = i := fun i => by omega
  have hdo : ∀ i : ℕ, (2 * i + 1) / 2 = i := fun i => by omega
  refine ⟨?_, ?_, fun B L R dF x => rfl⟩
  · intro pos i
    constructor
    · simp only [PositionalEncoding.pe, heven i.1, hde i.1, eq_self_iff_true, if_true]
      rw [hdiv, div_eq_mul_inv, div_eq_mul_inv]
    · simp only [PositionalEncoding.pe, hodd i.1, hdo i.1, Nat.one_ne_zero, if_false]
      rw [hdiv, div_eq_mul_inv, div_eq_mul_inv]
  · intro i
    constructor
    · simp only [PositionalEncoding.pe, heven i.1, hde i.1, eq_self_iff_true, if_true]
      norm_num
    · simp only [PositionalEncoding.pe, hodd i.1, hdo i.1, Nat.one_ne_zero, if_false]
      norm_num

section Helpers

/-- Sum over a singleton index range written as `Fin (1 * 1)`. -/
theorem sum_fin_one_mul_one (f : Fin (1 * 1) → ℝ) : ∑ x, f x = f ⟨0, Nat.one_pos⟩ :=
  Fin.sum_univ_one f

/-- Concrete evaluation of `MultiHeadedAttention_RPR.forward` with one head,
`d_model = 1`, identity projections, all-ones input, no dropout: whatever
key-relation table `kt` is drawn, if the drawn value-relation table is the
constant `c` the output is the constant `1 + c`. -/
theorem rpr_forward_ones_eval (c : ℝ) (kt : Fin (2 * 5 + 1) → Fin 1 → ℝ) :
    MultiHeadedAttention_RPR.forward 5 mhaP1 kt (fun _ _ => c) id ones111 ones111 ones111 none
      = fun _ _ _ => 1 + c := by
  funext b s f
  simp only [MultiHeadedAttention_RPR.forward, linearMap, headSplit, headMerge,
    relativeAttnInnerT, relativeAttnInnerF, softmaxLast, generate_relative_positions_embeddings,
    mhaP1, idLin1, ones111, id_eq, sum_fin_one_mul_one, Fin.sum_univ_one]
  rw [div_self (Real.exp_ne_zero _)]
  ring

end Helpers

/-- C1: `MultiHeadedAttention_RPR.forward` is not a deterministic function of
inputs and module parameters even with dropout disabled: the relation-embedding
tables are redrawn (randomly re-initialised `nn.Embedding`) inside every
forward call, so two calls on the same module with identical query/key/value,
identical mask and identical parameters — differing only in the per-call random
table draw — return different outputs. -/
theorem rpr_forward_two_calls_differ :
    MultiHeadedAttention_RPR.forward 5 mhaP1 (fun _ _ => 0) (fun _ _ => 0) id
        ones111 ones111 ones111 none ≠
      MultiHeadedAttention_RPR.forward 5 mhaP1 (fun _ _ => 0) (fun _ _ => 1) id
        ones111 ones111 ones111 none := by
  rw [rpr_forward_ones_eval 0 (fun _ _ => 0), rpr_forward_ones_eval 1 (fun _ _ => 0)]
  intro h
  have h0 := congrFun (congrFun (congrFun h ⟨0, Nat.one_pos⟩) ⟨0, Nat.one_pos⟩)
    ⟨0, Nat.one_pos⟩
  norm_num at h0

/-- C2: the relation-embedding tables are not parameters created once at module
instantiation and merely read by `forward`: the module state built by
`__init__` (four linears, dropout, `max_relative_position`, cf. `MHAParams`)
does not determine the output — there exist two per-call table draws giving
different outputs for the same module parameters and the same input. -/
theorem rpr_tables_redrawn_each_call :
    ∃ t₁ t₂ : Fin (2 * 5 + 1) → Fin 1 → ℝ,
      MultiHeadedAttention_RPR.forward 5 mhaP1 (fun _ _ => 0) t₁ id
          ones111 ones111 ones111 none ≠
        MultiHeadedAttention_RPR.forward 5 mhaP1 (fun _ _ => 0) t₂ id
          ones111 ones111 ones111 none := by
  refine ⟨fun _ _ => 0, fun _ _ => 1, ?_⟩
  rw [rpr_forward_ones_eval 0 (fun _ _ => 0), rpr_forward_ones_eval 1 (fun _ _ => 0)]
  intro h
  have h0 := congrFun (congrFun (congrFun h ⟨0, Nat.one_pos⟩) ⟨0, Nat.one_pos⟩)
    ⟨0, Nat.one_pos⟩
  norm_num at h0

section Helpers

/-- Sum over a two-element index range written as `Fin (1 * 2)`. -/
theorem sum_fin_one_mul_two (f : Fin (1 * 2) → ℝ) : ∑ x, f x = f ⟨0, by omega⟩ + f ⟨1, by omega⟩ :=
  Fin.sum_univ_two f

end Helpers

/-- C3 counterexample: with `h = 1`, `d_k = 2`, identity projections, all-zero
relation tables, no mask and no dropout, `MultiHeadedAttention_RPR.forward`
differs from `MultiHeadedAttention.forward` on the self-attention input `x122`:
the RPR path never divides its logits by `sqrt(d_k)`, so its softmax sees
`1` where the standard path sees `1/sqrt 2`. -/
theorem rpr_zero_tables_ne_mha_dk_two :
    MultiHeadedAttention_RPR.forward 5 mhaP2 (fun _ _ => 0) (fun _ _ => 0) id
        x122 x122 x122 none ≠
      MultiHeadedAttention.forward mhaP2 id x122 x122 x122 none := by
  have hRPR : MultiHeadedAttention_RPR.forward 5 mhaP2 (fun _ _ => 0) (fun _ _ => 0) id
      x122 x122 x122 none ⟨0, by omega⟩ ⟨0, by omega⟩ ⟨0, by omega⟩ =
      Real.exp 1 / (Real.exp 1 + 1) := by
    simp only [MultiHeadedAttention_RPR.forward, relativeAttnInnerT, relativeAttnInnerF,
      generate_relative_positions_embeddings, linearMap, headSplit, headMerge, softmaxLast,
      mhaP2, idLin2, x122, id_eq, sum_fin_one_mul_two, Fin.sum_univ_two]
    norm_num [Fin.divNat, Fin.modNat]
  have hMHA : MultiHeadedAttention.forward mhaP2 id x122 x122 x122 none
      ⟨0, by omega⟩ ⟨0, by omega⟩ ⟨0, by omega⟩ =
      Real.exp (1 / Real.sqrt 2) / (Real.exp (1 / Real.sqrt 2) + 1) := by
    simp only [MultiHeadedAttention.forward, attention, linearMap, headSplit, headMerge,
      softmaxLast, mhaP2, idLin2, x122, Option.map_none', id_eq, sum_fin_one_mul_two,
      Fin.sum_univ_two]
    norm_num [Fin.divNat, Fin.modNat]
  intro hcontra
  have h0 := congrFun (congrFun (congrFun hcontra ⟨0, by omega⟩) ⟨0, by omega⟩) ⟨0, by omega⟩
  rw [hRPR, hMHA] at h0
  have hs2 : (1 : ℝ) < Real.sqrt 2 := by
    nlinarith [Real.sq_sqrt (show (0 : ℝ) ≤ 2 by norm_num), Real.sqrt_nonneg 2]
  have hlt : Real.exp (1 / Real.sqrt 2) < Real.exp 1 :=
    Real.exp_lt_exp.mpr (by rw [div_lt_one (by positivity)]; exact hs2)
  have hb : (0 : ℝ) < Real.exp (1 / Real.sqrt 2) := Real.exp_pos _
  have ha : (0 : ℝ) < Real.exp 1 := Real.exp_pos _
  rw [div_eq_div_iff (by positivity) (by positivity)] at h0
  nlinarith [hlt, h0]

/-- C3 amended: with both relation tables all-zero, no mask, the same realised
dropout action on both sides, identical projection weights, and per-head
dimension `d_k = 1` (so the `1/sqrt(d_k)` scaling the RPR path omits is
trivial), `MultiHeadedAttention_RPR.forward` returns exactly the output of
`MultiHeadedAttention.forward`; for `d_k > 1` the two differ because the RPR
path computes its logits without dividing by `sqrt(d_k)`. -/
theorem rpr_zero_tables_eq_mha_dk_one {B L h : ℕ} (krel : ℕ) (p : MHAParams h 1)
    (dropoutF : Tensor4 B h L L → Tensor4 B h L L) (q k v : Tensor3 B L (h * 1)) :
    MultiHeadedAttention_RPR.forward krel p (fun _ _ => 0) (fun _ _ => 0) dropoutF q k v none =
      MultiHeadedAttention.forward p dropoutF q k v none := by
  unfold MultiHeadedAttention_RPR.forward MultiHeadedAttention.forward
  simp only [Option.map_none']
  refine congrArg (linearMap p.wo) (congrArg headMerge ?_)
  have harg : relativeAttnInnerT (headSplit (linearMap p.wq q)) (headSplit (linearMap p.wk k))
      (generate_relative_positions_embeddings L krel 1 (fun _ _ => 0)) =
      (fun b hh i j => (∑ t, (headSplit (linearMap p.wq q)) b hh i t *
        (headSplit (linearMap p.wk k)) b hh j t) / Real.sqrt ((1 : ℕ) : ℝ)) := by
    funext b hh i j
    simp [relativeAttnInnerT, generate_relative_positions_embeddings, Real.sqrt_one]
  funext b hh i f
  simp only [relativeAttnInnerF, generate_relative_positions_embeddings, mul_zero,
    Finset.sum_const_zero, add_zero, attention, harg]
